import Mathlib

/-
Verification of the meta plugin protocol crate (src/lib.rs).

The crate defines serde data types exchanged between the meta CLI host and
its subprocess plugins, helper functions, and the `run_plugin` harness.

Embedding notes:
  * JSON values are modelled by the inductive `Json`.  A JSON object is an
    association list of key/value pairs; `getField` is first-match lookup,
    which agrees with serde for objects without duplicate keys.
  * Rust `HashMap<String, String>` is modelled as `List (String × String)`:
    the list order is the map's iteration order.  Rust's `HashMap` uses a
    randomized hasher, so the iteration order is unspecified and varies
    between processes; two runs of the same plugin binary correspond to two
    lists that are permutations of each other.
  * serde_json's text layer (UTF-8 reading and JSON syntax) is external to
    this crate; `read_request_from_stdin` therefore takes an
    `Option Json`: `none` models an I/O error or syntactically malformed
    JSON, `some j` a syntactically valid document.  The derived
    `Deserialize` impls of this crate are modelled concretely by the
    `parse*` functions.  The derived `Serialize` impls stream straight to
    text; the `render*` functions model that text (serde_json compact and
    pretty formats), and the `toJson` functions give the value-level view
    used for the round-trip property.
  * JSON numbers are modelled as integers (the schema only uses `usize`).
  * `run_plugin` is modelled as a pure function from the argument vector,
    the stdin document and the plugin definition to a `ProcOutput`
    (accumulated stdout, accumulated stderr, exit status).  `errDetail`
    abstracts the Display text of the serde_json/anyhow parse error, which
    is produced outside this crate.
-/

inductive Json where
  | null : Json
  | bool (b : Bool) : Json
  | num (n : Int) : Json
  | str (s : String) : Json
  | arr (xs : List Json) : Json
  | obj (fields : List (String × Json)) : Json

/-- First-match lookup of a key in a JSON object's field list. -/
def getField : List (String × Json) → String → Option Json
  | [], _ => none
  | (k, v) :: rest, key => if key = k then some v else getField rest key

/-- Left-biased choice on optional JSON values. -/
def optOr : Option Json → Option Json → Option Json
  | some x, _ => some x
  | none, b => b

/-- A field that is present iff its value is `some`: used to model
`#[serde(skip_serializing_if = "Option::is_none")]` and to build objects
with a chosen subset of optional fields. -/
def optField (k : String) : Option Json → List (String × Json)
  | none => []
  | some j => [(k, j)]

/-- Builder for a JSON number from a Nat. -/
def natJson (n : Nat) : Json :=
  Json.num (Int.ofNat n)

/-- Builder for a JSON array of strings. -/
def strListJson (xs : List String) : Json :=
  Json.arr (xs.map Json.str)

/-- Builder for a JSON object of string values. -/
def strMapJson (m : List (String × String)) : Json :=
  Json.obj (m.map (fun kv => (kv.1, Json.str kv.2)))


-- ============================================================================
-- Plugin Discovery Types
-- ============================================================================

/-- Help information for a plugin's commands (struct `PluginHelp`).
`commands` models `HashMap<String, String>` together with its iteration
order. -/
structure PluginHelp where
  usage : String
  commands : List (String × String)
  examples : List String
  note : Option String
deriving DecidableEq

/-- Metadata about a plugin, returned in response to `--meta-plugin-info`
(struct `PluginInfo`). -/
structure PluginInfo where
  name : String
  version : String
  commands : List String
  description : Option String
  help : Option PluginHelp
deriving DecidableEq

-- ============================================================================
-- Host-to-Plugin Communication
-- ============================================================================

/-- Options passed from the host to the plugin (struct
`PluginRequestOptions`). -/
structure PluginRequestOptions where
  json_output : Bool
  verbose : Bool
  parallel : Bool
  dry_run : Bool
  silent : Bool
  recursive : Bool
  depth : Option Nat
  include_filters : Option (List String)
  exclude_filters : Option (List String)
deriving DecidableEq

/-- The value of `PluginRequestOptions::default()` (derived `Default`:
every `bool` is `false`, every `Option` is `None`). -/
def defaultOptions : PluginRequestOptions :=
  ⟨false, false, false, false, false, false, none, none, none⟩

/-- A request from the meta CLI host to a plugin (struct `PluginRequest`). -/
structure PluginRequest where
  command : String
  args : List String
  projects : List String
  cwd : String
  options : PluginRequestOptions
deriving DecidableEq

-- ============================================================================
-- Plugin-to-Host Response
-- ============================================================================

/-- A single command to be executed by the host (struct `PlannedCommand`).
`env` models `Option<HashMap<String, String>>`. -/
structure PlannedCommand where
  dir : String
  cmd : String
  env : Option (List (String × String))
deriving DecidableEq

/-- An execution plan returned by a plugin (struct `ExecutionPlan`). -/
structure ExecutionPlan where
  commands : List PlannedCommand
  parallel : Option Bool
deriving DecidableEq

/-- Wrapper for the execution plan response (struct `PlanResponse`). -/
structure PlanResponse where
  plan : ExecutionPlan
deriving DecidableEq

-- ============================================================================
-- Command Result
-- ============================================================================

/-- The result of a plugin command execution (enum `CommandResult`). -/
inductive CommandResult where
  | Plan (commands : List PlannedCommand) (parallel : Option Bool) : CommandResult
  | Message (msg : String) : CommandResult
  | Error (e : String) : CommandResult
  | ShowHelp (maybeError : Option String) : CommandResult

/-- Definition of a plugin (struct `PluginDefinition`). -/
structure PluginDefinition where
  info : PluginInfo
  execute : PluginRequest → CommandResult

/-- Observable outcome of one plugin process invocation: the bytes written
to stdout, the bytes written to stderr, and the exit status. -/
structure ProcOutput where
  stdout : String
  stderr : String
  exitCode : Nat
deriving DecidableEq

-- ============================================================================
-- Derived Deserialize impls
-- ============================================================================

/-- Deserializing a `String` from a JSON value. -/
def parseString : Json → Option String
  | Json.str s => some s
  | _ => none

/-- Deserializing a `bool` from a JSON value. -/
def parseBool : Json → Option Bool
  | Json.bool b => some b
  | _ => none

/-- Deserializing a `usize` from a JSON value: the number must be a
non-negative integer. -/
def parseNat : Json → Option Nat
  | Json.num n => if n < 0 then none else some n.toNat
  | _ => none

/-- Deserializing each element of a JSON array as a `String`. -/
def parseStrings : List Json → Option (List String)
  | [] => some []
  | x :: xs =>
    match parseString x, parseStrings xs with
    | some s, some rest => some (s :: rest)
    | _, _ => none

/-- Deserializing a `Vec<String>` from a JSON value. -/
def parseStringList : Json → Option (List String)
  | Json.arr xs => parseStrings xs
  | _ => none

/-- Deserializing each value of a JSON object as a `String`. -/
def parseStrPairs : List (String × Json) → Option (List (String × String))
  | [] => some []
  | (k, v) :: rest =>
    match parseString v, parseStrPairs rest with
    | some s, some tail => some ((k, s) :: tail)
    | _, _ => none

/-- Deserializing a `HashMap<String, String>` from a JSON value. -/
def parseStringMap : Json → Option (List (String × String))
  | Json.obj fields => parseStrPairs fields
  | _ => none

/-- Semantics of a `#[serde(default)]` field of a non-`Option` type: an
absent field takes the default value; a present field must deserialize. -/
def parseDefault (p : Json → Option α) (d : α) : Option Json → Option α
  | none => some d
  | some j => p j

/-- Semantics of a `#[serde(default)]` field of an `Option` type: an absent
or `null` field is `None`; otherwise the value must deserialize. -/
def parseOpt (p : Json → Option α) : Option Json → Option (Option α)
  | none => some none
  | some Json.null => some none
  | some j => (p j).map some

/-- Derived `Deserialize` for `PluginRequestOptions`: every field carries
`#[serde(default)]`; unknown fields are ignored (no `deny_unknown_fields`). -/
def parsePluginRequestOptions : Json → Option PluginRequestOptions
  | Json.obj fields =>
    match parseDefault parseBool false (getField fields "json_output"),
          parseDefault parseBool false (getField fields "verbose"),
          parseDefault parseBool false (getField fields "parallel"),
          parseDefault parseBool false (getField fields "dry_run"),
          parseDefault parseBool false (getField fields "silent"),
          parseDefault parseBool false (getField fields "recursive"),
          parseOpt parseNat (getField fields "depth"),
          parseOpt parseStringList (getField fields "include_filters"),
          parseOpt parseStringList (getField fields "exclude_filters") with
    | some jo, some v, some p, some d, some s, some r, some dep, some inc, some exc =>
      some ⟨jo, v, p, d, s, r, dep, inc, exc⟩
    | _, _, _, _, _, _, _, _, _ => none
  | _ => none

/-- Derived `Deserialize` for `PluginRequest`: `command` is required (no
default); the remaining fields carry `#[serde(default)]`; unknown fields
are ignored. -/
def parsePluginRequest : Json → Option PluginRequest
  | Json.obj fields =>
    match getField fields "command" with
    | some (Json.str cmd) =>
      match parseDefault parseStringList [] (getField fields "args"),
            parseDefault parseStringList [] (getField fields "projects"),
            parseDefault parseString "" (getField fields "cwd"),
            parseDefault parsePluginRequestOptions defaultOptions (getField fields "options") with
      | some args, some projects, some cwd, some options =>
        some ⟨cmd, args, projects, cwd, options⟩
      | _, _, _, _ => none
    | _ => none
  | _ => none

/-- Derived `Deserialize` for `PlannedCommand`: `dir` and `cmd` are
required strings; `env` carries `#[serde(default)]`. -/
def parsePlannedCommand : Json → Option PlannedCommand
  | Json.obj fields =>
    match getField fields "dir", getField fields "cmd" with
    | some (Json.str dir), some (Json.str cmd) =>
      match parseOpt parseStringMap (getField fields "env") with
      | some env => some ⟨dir, cmd, env⟩
      | none => none
    | _, _ => none
  | _ => none

/-- Deserializing each element of a JSON array as a `PlannedCommand`. -/
def parsePlannedCommands : List Json → Option (List PlannedCommand)
  | [] => some []
  | x :: xs =>
    match parsePlannedCommand x, parsePlannedCommands xs with
    | some c, some rest => some (c :: rest)
    | _, _ => none

/-- Derived `Deserialize` for `ExecutionPlan`: `commands` is required;
`parallel` carries `#[serde(default)]`. -/
def parseExecutionPlan : Json → Option ExecutionPlan
  | Json.obj fields =>
    match getField fields "commands" with
    | some (Json.arr xs) =>
      match parsePlannedCommands xs, parseOpt parseBool (getField fields "parallel") with
      | some commands, some parallel => some ⟨commands, parallel⟩
      | _, _ => none
    | _ => none
  | _ => none

/-- Derived `Deserialize` for `PlanResponse`: `plan` is required. -/
def parsePlanResponse : Json → Option PlanResponse
  | Json.obj fields =>
    match getField fields "plan" with
    | some pj => (parseExecutionPlan pj).map (fun plan => PlanResponse.mk plan)
    | none => none
  | _ => none

/-- Model of `read_request_from_stdin`: the external text layer yields
either a syntax failure (`none`) or a JSON document, which is then
deserialized as a `PluginRequest`. -/
def read_request_from_stdin (stdin : Option Json) : Option PluginRequest :=
  stdin.bind parsePluginRequest

-- ============================================================================
-- Derived Serialize impls
-- ============================================================================

/-- Value-level derived `Serialize` for `PlannedCommand`: fields in
declaration order; `env` is skipped when `None`
(`skip_serializing_if = "Option::is_none"`). -/
def PlannedCommand.toJson (c : PlannedCommand) : Json :=
  Json.obj ([("dir", Json.str c.dir), ("cmd", Json.str c.cmd)]
    ++ optField "env" (c.env.map strMapJson))

/-- Value-level derived `Serialize` for `ExecutionPlan`: `parallel` is
skipped when `None`. -/
def ExecutionPlan.toJson (p : ExecutionPlan) : Json :=
  Json.obj ([("commands", Json.arr (p.commands.map PlannedCommand.toJson))]
    ++ optField "parallel" (p.parallel.map Json.bool))

/-- Value-level derived `Serialize` for `PlanResponse`. -/
def PlanResponse.toJson (r : PlanResponse) : Json :=
  Json.obj [("plan", r.plan.toJson)]

/-- serde_json's escape for one character inside a JSON string literal. -/
def escapeChar (c : Char) : String :=
  if c = Char.ofNat 34 then "\\\""
  else if c = Char.ofNat 92 then "\\\\"
  else if c = Char.ofNat 8 then "\\b"
  else if c = Char.ofNat 9 then "\\t"
  else if c = Char.ofNat 10 then "\\n"
  else if c = Char.ofNat 12 then "\\f"
  else if c = Char.ofNat 13 then "\\r"
  else if c.toNat < 32 then
    "\\u00" ++ hexDigit (c.toNat / 16) ++ hexDigit (c.toNat % 16)
  else String.mk [c]
where
  hexDigit (n : Nat) : String :=
    String.mk [Char.ofNat (if n < 10 then 48 + n else 87 + n)]

/-- serde_json's rendering of a JSON string literal. -/
def renderString (s : String) : String :=
  "\"" ++ String.join (s.data.map escapeChar) ++ "\""

/-- serde_json's rendering of a `bool`. -/
def renderBool (b : Bool) : String :=
  if b then "true" else "false"

/-- Compact rendering of the entries of a string-to-string map. -/
def strMapEntriesCompact : List (String × String) → String
  | [] => ""
  | [kv] => renderString kv.1 ++ ":" ++ renderString kv.2
  | kv :: kv2 :: rest =>
    renderString kv.1 ++ ":" ++ renderString kv.2 ++ "," ++ strMapEntriesCompact (kv2 :: rest)

/-- Compact rendering of a string-to-string map as a JSON object. -/
def renderStrMapCompact (m : List (String × String)) : String :=
  "\x7b" ++ strMapEntriesCompact m ++ "\x7d"

/-- Streaming compact `Serialize` for `PlannedCommand`, as emitted by
`serde_json::to_string`. -/
def PlannedCommand.renderCompact (c : PlannedCommand) : String :=
  "\x7b\"dir\":" ++ renderString c.dir ++ ",\"cmd\":" ++ renderString c.cmd
    ++ (match c.env with
        | none => ""
        | some m => ",\"env\":" ++ renderStrMapCompact m)
    ++ "\x7d"

/-- Compact rendering of a list of planned commands, comma separated. -/
def plannedCommandsCompact : List PlannedCommand → String
  | [] => ""
  | [c] => c.renderCompact
  | c :: c2 :: rest => c.renderCompact ++ "," ++ plannedCommandsCompact (c2 :: rest)

/-- Streaming compact `Serialize` for `ExecutionPlan`. -/
def ExecutionPlan.renderCompact (p : ExecutionPlan) : String :=
  "\x7b\"commands\":[" ++ plannedCommandsCompact p.commands ++ "]"
    ++ (match p.parallel with
        | none => ""
        | some b => ",\"parallel\":" ++ renderBool b)
    ++ "\x7d"

/-- Streaming compact `Serialize` for `PlanResponse`. -/
def PlanResponse.renderCompact (r : PlanResponse) : String :=
  "\x7b\"plan\":" ++ r.plan.renderCompact ++ "\x7d"

/-- Model of `output_execution_plan`: the bytes written to stdout
(`println!` of `serde_json::to_string` of the wrapped plan). -/
def output_execution_plan (commands : List PlannedCommand) (parallel : Option Bool) : String :=
  PlanResponse.renderCompact ⟨⟨commands, parallel⟩⟩ ++ "\n"

/-- Indentation of serde_json's pretty formatter: two spaces per level. -/
def indentStr (n : Nat) : String :=
  String.mk (List.replicate (2 * n) ' ')

/-- Pretty rendering of the entries of a JSON array of strings, one per
line at the given indentation level. -/
def strArrEntriesPretty (ind : Nat) : List String → String
  | [] => ""
  | [x] => indentStr ind ++ renderString x
  | x :: y :: rest =>
    indentStr ind ++ renderString x ++ ",\n" ++ strArrEntriesPretty ind (y :: rest)

/-- Pretty rendering of a `Vec<String>` as a JSON array. -/
def renderStrArrPretty (ind : Nat) (xs : List String) : String :=
  match xs with
  | [] => "[]"
  | _ => "[\n" ++ strArrEntriesPretty (ind + 1) xs ++ "\n" ++ indentStr ind ++ "]"

/-- Pretty rendering of the entries of a string-to-string map. -/
def strMapEntriesPretty (ind : Nat) : List (String × String) → String
  | [] => ""
  | [kv] => indentStr ind ++ renderString kv.1 ++ ": " ++ renderString kv.2
  | kv :: kv2 :: rest =>
    indentStr ind ++ renderString kv.1 ++ ": " ++ renderString kv.2 ++ ",\n"
      ++ strMapEntriesPretty ind (kv2 :: rest)

/-- Pretty rendering of a `HashMap<String, String>` as a JSON object, in
iteration order. -/
def renderStrMapPretty (ind : Nat) (m : List (String × String)) : String :=
  match m with
  | [] => "\x7b\x7d"
  | _ => "\x7b\n" ++ strMapEntriesPretty (ind + 1) m ++ "\n" ++ indentStr ind ++ "\x7d"

/-- Rendering of an `Option<String>` field without a skip attribute:
`None` serializes as `null`. -/
def renderOptStr : Option String → String
  | none => "null"
  | some s => renderString s

/-- Streaming pretty `Serialize` for `PluginHelp`: all four fields are
always emitted (no skip attributes), in declaration order. -/
def PluginHelp.renderPretty (ind : Nat) (h : PluginHelp) : String :=
  "\x7b\n"
    ++ indentStr (ind + 1) ++ "\"usage\": " ++ renderString h.usage ++ ",\n"
    ++ indentStr (ind + 1) ++ "\"commands\": " ++ renderStrMapPretty (ind + 1) h.commands ++ ",\n"
    ++ indentStr (ind + 1) ++ "\"examples\": " ++ renderStrArrPretty (ind + 1) h.examples ++ ",\n"
    ++ indentStr (ind + 1) ++ "\"note\": " ++ renderOptStr h.note ++ "\n"
    ++ indentStr ind ++ "\x7d"

/-- Streaming pretty `Serialize` for `PluginInfo`, as emitted by
`serde_json::to_string_pretty` in `run_plugin`'s discovery arm. -/
def PluginInfo.renderPretty (info : PluginInfo) : String :=
  "\x7b\n"
    ++ "  \"name\": " ++ renderString info.name ++ ",\n"
    ++ "  \"version\": " ++ renderString info.version ++ ",\n"
    ++ "  \"commands\": " ++ renderStrArrPretty 1 info.commands ++ ",\n"
    ++ "  \"description\": " ++ renderOptStr info.description ++ ",\n"
    ++ "  \"help\": "
    ++ (match info.help with
        | none => "null"
        | some h => h.renderPretty 1)
    ++ "\n\x7d"

-- ============================================================================
-- Help rendering and the plugin harness
-- ============================================================================

/-- One line of the "Commands:" block: `writeln!(w, "  \x7b:<20\x7d \x7b\x7d", cmd, desc)`,
the command name left-padded with spaces to a minimum width of 20. -/
def commandLine (kv : String × String) : String :=
  "  " ++ kv.1 ++ String.mk (List.replicate (20 - kv.1.length) ' ') ++ " " ++ kv.2 ++ "\n"

/-- One line of the "Examples:" block. -/
def exampleLine (e : String) : String :=
  "  " ++ e ++ "\n"

/-- Model of `write_plugin_help`: the bytes written to the abstract sink.
The commands map is traversed in its iteration order. -/
def write_plugin_help (info : PluginInfo) : String :=
  match info.help with
  | some help =>
    help.usage ++ "\n" ++ "\n"
      ++ (if help.commands.isEmpty then ""
          else "Commands:\n" ++ String.join (help.commands.map commandLine) ++ "\n")
      ++ (if help.examples.isEmpty then ""
          else "Examples:\n" ++ String.join (help.examples.map exampleLine) ++ "\n")
      ++ (match help.note with
          | some note => note ++ "\n"
          | none => "")
  | none =>
    "meta " ++ info.name ++ " v" ++ info.version ++ "\n"
      ++ (match info.description with
          | some desc => desc ++ "\n"
          | none => "")

/-- Model of `run_plugin`: dispatch on `args[1]`, producing the bytes
written to stdout and stderr and the exit status.  `argv` is the full
argument vector including the binary name (`args[0]`); `stdin` is the
result of the external JSON text layer; `errDetail` abstracts the Display
text of the parse error produced by serde_json/anyhow. -/
def run_plugin (plugin : PluginDefinition) (argv : List String) (stdin : Option Json)
    (errDetail : String) : ProcOutput :=
  match argv with
  | _ :: arg1 :: _ =>
    match arg1 with
    | "--meta-plugin-info" => ⟨PluginInfo.renderPretty plugin.info ++ "\n", "", 0⟩
    | "--meta-plugin-exec" =>
      match read_request_from_stdin stdin with
      | none => ⟨"", "Failed to parse plugin request: " ++ errDetail ++ "\n", 1⟩
      | some req =>
        match plugin.execute req with
        | CommandResult.Plan commands parallel =>
          ⟨output_execution_plan commands parallel, "", 0⟩
        | CommandResult.Message msg =>
          ⟨if msg.isEmpty then "" else msg ++ "\n", "", 0⟩
        | CommandResult.Error e =>
          ⟨"", "Error: " ++ e ++ "\n", 1⟩
        | CommandResult.ShowHelp (some err) =>
          ⟨"", "error: " ++ err ++ "\n" ++ "\n" ++ write_plugin_help plugin.info, 1⟩
        | CommandResult.ShowHelp none =>
          ⟨write_plugin_help plugin.info, "", 0⟩
    | "--help" => ⟨write_plugin_help plugin.info, "", 0⟩
    | "-h" => ⟨write_plugin_help plugin.info, "", 0⟩
    | other =>
      ⟨"", "Unknown flag: " ++ other ++ ". This binary is a meta plugin.\n"
        ++ "Use via: meta " ++ plugin.info.name ++ "\n", 1⟩
  | _ =>
    ⟨"", "This binary is a meta plugin. Use via: meta " ++ plugin.info.name ++ "\n", 1⟩

-- ============================================================================
-- Request payload builders (for quantifying over subsets of present fields)
-- ============================================================================

/-- A JSON object for `PluginRequestOptions` in which each field is present
exactly when its argument is `some`; present fields hold well-typed
values. -/
def mkOptionsJson (jo v p d s r : Option Bool) (dep : Option Nat)
    (inc exc : Option (List String)) : Json :=
  Json.obj (optField "json_output" (jo.map Json.bool)
    ++ optField "verbose" (v.map Json.bool)
    ++ optField "parallel" (p.map Json.bool)
    ++ optField "dry_run" (d.map Json.bool)
    ++ optField "silent" (s.map Json.bool)
    ++ optField "recursive" (r.map Json.bool)
    ++ optField "depth" (dep.map natJson)
    ++ optField "include_filters" (inc.map strListJson)
    ++ optField "exclude_filters" (exc.map strListJson))

/-- A JSON object for `PluginRequest` with a `command` string and each
optional field present exactly when its argument is `some`. -/
def mkRequestJson (cmd : String) (args projects : Option (List String))
    (cwd : Option String) (opts : Option Json) : Json :=
  Json.obj (("command", Json.str cmd) :: (optField "args" (args.map strListJson)
    ++ optField "projects" (projects.map strListJson)
    ++ optField "cwd" (cwd.map Json.str)
    ++ optField "options" opts))

-- ============================================================================
-- Derived notions used by the verified properties
-- ============================================================================

/-- The exit status `run_plugin` assigns to each `CommandResult` variant in
the `--meta-plugin-exec` arm. -/
def exitCodeOfResult : CommandResult → Nat
  | CommandResult.Plan _ _ => 0
  | CommandResult.Message _ => 0
  | CommandResult.Error _ => 1
  | CommandResult.ShowHelp (some _) => 1
  | CommandResult.ShowHelp none => 0

/-- Two `Option PluginHelp` values that describe the same help content:
equal in every field, except that the commands map may be iterated in a
different order (Rust `HashMap` iteration order is randomized per
process). -/
def HelpSameMap : Option PluginHelp → Option PluginHelp → Prop
  | none, none => True
  | some h1, some h2 =>
    h1.usage = h2.usage ∧ h1.commands.Perm h2.commands
      ∧ h1.examples = h2.examples ∧ h1.note = h2.note
  | _, _ => False

/-- Two `PluginInfo` values describing the same plugin binary: equal in
every field, with the help commands map equal as a map (up to iteration
order). -/
def SamePluginBinary (a b : PluginInfo) : Prop :=
  a.name = b.name ∧ a.version = b.version ∧ a.commands = b.commands
    ∧ a.description = b.description ∧ HelpSameMap a.help b.help

/-- Number of entries in the help commands map of a plugin. -/
def helpCommandsCount (info : PluginInfo) : Nat :=
  match info.help with
  | none => 0
  | some h => h.commands.length

-- ============================================================================
-- Concrete instances used by witnesses and counterexamples
-- ============================================================================

/-- A plugin info whose help commands map has two entries, listed in one
iteration order. -/
def twoCmdInfoAB : PluginInfo :=
  ⟨"p", "1", [], none, some ⟨"u", [("a", "x"), ("b", "y")], [], none⟩⟩

/-- The same plugin info with the opposite iteration order of the
commands map. -/
def twoCmdInfoBA : PluginInfo :=
  ⟨"p", "1", [], none, some ⟨"u", [("b", "y"), ("a", "x")], [], none⟩⟩

/-- A plugin info whose help commands map has a single entry
(scenario E of the specification). -/
def pullInfo : PluginInfo :=
  ⟨"git", "0.1.0", ["pull"], none, some ⟨"meta git <command> [args...]", [("pull", "fetch+merge")], [], none⟩⟩

/-- A minimal well-formed request document. -/
def minimalRequestJson : Json :=
  Json.obj [("command", Json.str "status")]

/-- The request that `minimalRequestJson` parses to. -/
def minimalRequest : PluginRequest :=
  ⟨"status", [], [], "", defaultOptions⟩

-- ============================================================================
-- Helper lemmas
-- ============================================================================

theorem optOr_none_right (a : Option Json) : optOr a none = a := by
  cases a <;> rfl

theorem optOr_none_left (b : Option Json) : optOr none b = b :=
  rfl

theorem getField_append (l1 l2 : List (String × Json)) (k : String) :
    getField (l1 ++ l2) k = optOr (getField l1 k) (getField l2 k) := by
  induction l1 with
  | nil => rfl
  | cons kv rest ih =>
    rcases kv with ⟨k1, v1⟩
    by_cases h : k = k1 <;> simp [getField, h, ih, optOr]

theorem getField_optField (k k1 : String) (v : Option Json) :
    getField (optField k1 v) k = if k = k1 then v else none := by
  cases v with
  | none => simp [optField, getField]
  | some j => by_cases h : k = k1 <;> simp [optField, getField, h]

theorem getField_snoc_ne {k k1 : String} (h : k1 ≠ k) (fields : List (String × Json)) (v : Json) :
    getField (fields ++ [(k, v)]) k1 = getField fields k1 := by
  rw [getField_append]
  simp [getField, h, optOr_none_right]

theorem parseDefault_none (p : Json → Option α) (d : α) :
    parseDefault p d none = some d :=
  rfl

theorem parseDefault_some (p : Json → Option α) (d : α) (j : Json) :
    parseDefault p d (some j) = p j :=
  rfl

theorem parseDefault_bool (v : Option Bool) (d : Bool) :
    parseDefault parseBool d (v.map Json.bool) = some (v.getD d) := by
  cases v <;> rfl

theorem parseDefault_str (v : Option String) (d : String) :
    parseDefault parseString d (v.map Json.str) = some (v.getD d) := by
  cases v <;> rfl

theorem parseStrings_map (xs : List String) :
    parseStrings (xs.map Json.str) = some xs := by
  induction xs with
  | nil => rfl
  | cons x rest ih => simp [parseStrings, parseString, ih]

theorem parseStringList_strListJson (xs : List String) :
    parseStringList (strListJson xs) = some xs := by
  simp [strListJson, parseStringList, parseStrings_map]

theorem parseStrPairs_map (m : List (String × String)) :
    parseStrPairs (m.map (fun kv => (kv.1, Json.str kv.2))) = some m := by
  induction m with
  | nil => rfl
  | cons kv rest ih => simp [parseStrPairs, parseString, ih]

theorem parseStringMap_strMapJson (m : List (String × String)) :
    parseStringMap (strMapJson m) = some m := by
  simp [strMapJson, parseStringMap, parseStrPairs_map]

theorem parseDefault_strList (v : Option (List String)) (d : List String) :
    parseDefault parseStringList d (v.map strListJson) = some (v.getD d) := by
  cases v <;> simp [parseDefault, parseStringList_strListJson]

theorem parseOpt_strList (v : Option (List String)) :
    parseOpt parseStringList (v.map strListJson) = some v := by
  cases v with
  | none => rfl
  | some xs => simp [strListJson, parseOpt, parseStringList, parseStrings_map]

theorem parseOpt_bool (v : Option Bool) :
    parseOpt parseBool (v.map Json.bool) = some v := by
  cases v <;> rfl

theorem parseOpt_nat (v : Option Nat) :
    parseOpt parseNat (v.map natJson) = some v := by
  cases v with
  | none => rfl
  | some n => simp [parseOpt, parseNat, natJson]

theorem parseOpt_strMap (v : Option (List (String × String))) :
    parseOpt parseStringMap (v.map strMapJson) = some v := by
  cases v with
  | none => rfl
  | some m => simp [strMapJson, parseOpt, parseStringMap, parseStrPairs_map]

theorem parseOptions_mk (jo v p d s r : Option Bool) (dep : Option Nat)
    (inc exc : Option (List String)) :
    parsePluginRequestOptions (mkOptionsJson jo v p d s r dep inc exc)
      = some ⟨jo.getD false, v.getD false, p.getD false, d.getD false, s.getD false,
              r.getD false, dep, inc, exc⟩ := by
  simp [mkOptionsJson, parsePluginRequestOptions, getField_append, getField_optField,
    optOr_none_right, optOr_none_left, parseDefault_bool, parseOpt_nat, parseOpt_strList]

theorem parsePlannedCommand_toJson (c : PlannedCommand) :
    parsePlannedCommand (PlannedCommand.toJson c) = some c := by
  rcases c with ⟨dir, cmd, env⟩
  simp [PlannedCommand.toJson, parsePlannedCommand, getField, getField_append,
    getField_optField, optOr_none_right, optOr_none_left, parseOpt_strMap]

theorem parsePlannedCommands_map (cs : List PlannedCommand) :
    parsePlannedCommands (cs.map PlannedCommand.toJson) = some cs := by
  induction cs with
  | nil => rfl
  | cons c rest ih => simp [parsePlannedCommands, parsePlannedCommand_toJson, ih]

theorem parseExecutionPlan_toJson (p : ExecutionPlan) :
    parseExecutionPlan (ExecutionPlan.toJson p) = some p := by
  rcases p with ⟨commands, parallel⟩
  simp [ExecutionPlan.toJson, parseExecutionPlan, getField, getField_append,
    getField_optField, optOr_none_right, optOr_none_left, parsePlannedCommands_map,
    parseOpt_bool]

-- ============================================================================
-- Claims
-- ============================================================================

/-- C1: For every invocation of `run_plugin` whose first argument is
`--meta-plugin-exec` and whose request parses successfully, the exit status
is determined solely by the `CommandResult` variant returned by `execute`:
`Plan` and `Message` exit 0, `Error` and `ShowHelp (some _)` exit 1, and
`ShowHelp none` exits 0. -/
theorem exec_exit_code_contract (plugin : PluginDefinition) (argv0 : String)
    (rest : List String) (stdin : Option Json) (errDetail : String) (req : PluginRequest)
    (hread : read_request_from_stdin stdin = some req) :
    (run_plugin plugin (argv0 :: "--meta-plugin-exec" :: rest) stdin errDetail).exitCode
      = exitCodeOfResult (plugin.execute req) := by
  simp only [run_plugin, hread]
  cases h : plugin.execute req with
  | Plan commands parallel => simp [exitCodeOfResult]
  | Message msg => by_cases hm : msg.isEmpty <;> simp [exitCodeOfResult, hm]
  | Error e => simp [exitCodeOfResult]
  | ShowHelp me => cases me <;> simp [exitCodeOfResult]

theorem exec_exit_code_contract_witness :
    (run_plugin ⟨pullInfo, fun _ => CommandResult.Error "boom"⟩
        ["bin", "--meta-plugin-exec"] (some minimalRequestJson) "detail").exitCode = 1 :=
  exec_exit_code_contract ⟨pullInfo, fun _ => CommandResult.Error "boom"⟩ "bin" []
    (some minimalRequestJson) "detail" minimalRequest rfl

/-- C2: serializing a `PlanResponse` to JSON and parsing that JSON back
yields a `PlanResponse` field-for-field equal to the original: command
order preserved, each env map entry preserved, and an absent `parallel`
round-trips to `None`, never to `Some false`. -/
theorem plan_response_roundtrip (r : PlanResponse) :
    parsePlanResponse (PlanResponse.toJson r) = some r := by
  rcases r with ⟨plan⟩
  simp [PlanResponse.toJson, parsePlanResponse, getField, parseExecutionPlan_toJson]

/-- C3: every JSON object with a `command` string and any subset of the
optional fields omitted (including any subset of the option flags) parses
successfully, and each omitted field takes its documented default:
`args = []`, `projects = []`, `cwd = ""`, every boolean option `false`,
and `depth`, `include_filters`, `exclude_filters` `None`. -/
theorem request_parse_defaults (cmd : String) (args projects : Option (List String))
    (cwd : Option String) (optsPresent : Bool) (jo v p d s r : Option Bool)
    (dep : Option Nat) (inc exc : Option (List String)) :
    parsePluginRequest (mkRequestJson cmd args projects cwd
        (if optsPresent then some (mkOptionsJson jo v p d s r dep inc exc) else none))
      = some ⟨cmd, args.getD [], projects.getD [], cwd.getD "",
          if optsPresent then
            ⟨jo.getD false, v.getD false, p.getD false, d.getD false, s.getD false,
             r.getD false, dep, inc, exc⟩
          else defaultOptions⟩ := by
  cases optsPresent <;>
    simp [mkRequestJson, parsePluginRequest, getField, getField_append, getField_optField,
      optOr_none_right, optOr_none_left, parseDefault_strList, parseDefault_str,
      parseDefault_none, parseDefault_some, parseOptions_mk]

/-- C4: when `execute` returns
`Plan([dir:"a", cmd:"git pull", env:None], Some(true))`, the harness writes
to stdout exactly the single compact JSON line with the `env` key absent,
`parallel` present as `true`, a trailing newline, nothing on stderr, and
exits 0. -/
theorem scenario_b_plan_output (plugin : PluginDefinition) (argv0 : String)
    (rest : List String) (stdin : Option Json) (errDetail : String) (req : PluginRequest)
    (hread : read_request_from_stdin stdin = some req)
    (hexec : plugin.execute req = CommandResult.Plan [⟨"a", "git pull", none⟩] (some true)) :
    run_plugin plugin (argv0 :: "--meta-plugin-exec" :: rest) stdin errDetail
      = ⟨"\x7b\"plan\":\x7b\"commands\":[\x7b\"dir\":\"a\",\"cmd\":\"git pull\"\x7d],\"parallel\":true\x7d\x7d\n",
         "", 0⟩ := by
  simp [run_plugin, hread, hexec]
  rfl

theorem scenario_b_plan_output_witness :
    run_plugin ⟨pullInfo, fun _ => CommandResult.Plan [⟨"a", "git pull", none⟩] (some true)⟩
        ["bin", "--meta-plugin-exec"] (some minimalRequestJson) "detail"
      = ⟨"\x7b\"plan\":\x7b\"commands\":[\x7b\"dir\":\"a\",\"cmd\":\"git pull\"\x7d],\"parallel\":true\x7d\x7d\n",
         "", 0⟩ :=
  scenario_b_plan_output _ "bin" [] (some minimalRequestJson) "detail" minimalRequest rfl rfl

/-- C5 counterexample: two invocations of a plugin binary whose help
commands map has two entries can iterate the `HashMap` in different orders
(its order is randomized per process) and then emit different bytes, so
discovery output is not a function of the `PluginDefinition` alone. -/
theorem discovery_bytes_cex :
    SamePluginBinary twoCmdInfoAB twoCmdInfoBA
      ∧ (run_plugin ⟨twoCmdInfoAB, fun _ => CommandResult.Message ""⟩
            ["bin", "--meta-plugin-info"] none "").stdout
        ≠ (run_plugin ⟨twoCmdInfoBA, fun _ => CommandResult.Message ""⟩
            ["bin", "--meta-plugin-info"] none "").stdout := by
  constructor
  · exact ⟨rfl, rfl, rfl, rfl, rfl, List.Perm.swap _ _ _, rfl, rfl⟩
  · decide

/-- C5 amended: two discovery invocations of the same plugin binary are
byte-identical whenever the help commands map has at most one entry (so
its iteration order is forced); the output never depends on the execute
function.  With two or more entries the bytes may differ with the
iteration order, as the counterexample shows. -/
theorem discovery_bytes_amended (a b : PluginInfo) (f g : PluginRequest → CommandResult)
    (argv0 : String) (rest : List String) (stdin : Option Json) (errDetail : String)
    (hsame : SamePluginBinary a b) (hcount : helpCommandsCount a ≤ 1) :
    (run_plugin ⟨a, f⟩ (argv0 :: "--meta-plugin-info" :: rest) stdin errDetail).stdout
      = (run_plugin ⟨b, g⟩ (argv0 :: "--meta-plugin-info" :: rest) stdin errDetail).stdout := by
  have hab : a = b := by
    rcases a with ⟨n1, v1, c1, d1, h1⟩
    rcases b with ⟨n2, v2, c2, d2, h2⟩
    obtain ⟨hn, hv, hc, hd, hh⟩ := hsame
    dsimp only at hn hv hc hd hh
    subst hn; subst hv; subst hc; subst hd
    simp only [helpCommandsCount] at hcount
    cases h1 with
    | none =>
      cases h2 with
      | none => rfl
      | some y => exact absurd hh (by simp [HelpSameMap])
    | some x =>
      cases h2 with
      | none => exact absurd hh (by simp [HelpSameMap])
      | some y =>
        obtain ⟨hu, hp, he, hno⟩ := hh
        dsimp only at hcount
        have hcm : x.commands = y.commands := by
          rcases hl : x.commands with _ | ⟨kv, _ | ⟨kv2, tl⟩⟩
          · rw [hl] at hp
            exact (List.perm_nil.mp hp.symm).symm
          · rw [hl] at hp
            exact List.singleton_perm.mp hp
          · rw [hl] at hcount
            simp at hcount
        have hxy : x = y := by
          rcases x with ⟨u1, cm1, e1, no1⟩
          rcases y with ⟨u2, cm2, e2, no2⟩
          dsimp only at hu hcm he hno
          rw [hu, hcm, he, hno]
        rw [hxy]
  subst hab
  simp [run_plugin]

theorem discovery_bytes_amended_witness :
    (run_plugin ⟨pullInfo, fun _ => CommandResult.Message ""⟩
        ["bin", "--meta-plugin-info"] none "").stdout
      = (run_plugin ⟨pullInfo, fun _ => CommandResult.Error "x"⟩
        ["bin", "--meta-plugin-info"] none "").stdout :=
  discovery_bytes_amended pullInfo pullInfo _ _ "bin" [] none ""
    ⟨rfl, rfl, rfl, rfl, rfl, List.Perm.refl _, rfl, rfl⟩ (by decide)

/-- C6: when `execute` returns `ShowHelp (some err)` the harness writes
"error: " ++ err, a blank line, then the rendered help, all to stderr,
writes nothing to stdout and exits 1; when it returns `ShowHelp none` the
help goes to stdout and the process exits 0. -/
theorem show_help_behavior (plugin : PluginDefinition) (argv0 : String) (rest : List String)
    (stdin : Option Json) (errDetail : String) (req : PluginRequest) (maybeErr : Option String)
    (hread : read_request_from_stdin stdin = some req)
    (hexec : plugin.execute req = CommandResult.ShowHelp maybeErr) :
    run_plugin plugin (argv0 :: "--meta-plugin-exec" :: rest) stdin errDetail
      = match maybeErr with
        | some err => ⟨"", "error: " ++ err ++ "\n" ++ "\n" ++ write_plugin_help plugin.info, 1⟩
        | none => ⟨write_plugin_help plugin.info, "", 0⟩ := by
  cases maybeErr <;> simp [run_plugin, hread, hexec]

theorem show_help_behavior_witness :
    run_plugin ⟨pullInfo, fun _ => CommandResult.ShowHelp (some "missing command")⟩
        ["bin", "--meta-plugin-exec"] (some minimalRequestJson) "detail"
      = ⟨"", "error: missing command\n" ++ "\n" ++ write_plugin_help pullInfo, 1⟩ :=
  show_help_behavior _ "bin" [] (some minimalRequestJson) "detail" minimalRequest
    (some "missing command") rfl rfl

/-- C7: when the stdin payload is not a valid `PluginRequest` document the
harness reports the parse failure on stderr, writes nothing to stdout,
exits 1, and never invokes the execute function (the outcome is the same
for every execute function). -/
theorem parse_failure_behavior (info : PluginInfo) (f g : PluginRequest → CommandResult)
    (argv0 : String) (rest : List String) (stdin : Option Json) (errDetail : String)
    (hfail : read_request_from_stdin stdin = none) :
    run_plugin ⟨info, f⟩ (argv0 :: "--meta-plugin-exec" :: rest) stdin errDetail
        = ⟨"", "Failed to parse plugin request: " ++ errDetail ++ "\n", 1⟩
      ∧ run_plugin ⟨info, f⟩ (argv0 :: "--meta-plugin-exec" :: rest) stdin errDetail
        = run_plugin ⟨info, g⟩ (argv0 :: "--meta-plugin-exec" :: rest) stdin errDetail := by
  constructor <;> simp [run_plugin, hfail]

theorem parse_failure_behavior_witness :
    run_plugin ⟨pullInfo, fun _ => CommandResult.Message "ran"⟩
        ["bin", "--meta-plugin-exec"] none "EOF while parsing a value"
        = ⟨"", "Failed to parse plugin request: EOF while parsing a value\n", 1⟩
      ∧ run_plugin ⟨pullInfo, fun _ => CommandResult.Message "ran"⟩
          ["bin", "--meta-plugin-exec"] none "EOF while parsing a value"
        = run_plugin ⟨pullInfo, fun _ => CommandResult.Error "other"⟩
          ["bin", "--meta-plugin-exec"] none "EOF while parsing a value" :=
  parse_failure_behavior pullInfo _ _ "bin" [] none "EOF while parsing a value" rfl

/-- C8 counterexample: a request whose `command` field is present but equal
to the empty string parses successfully into a `PluginRequest` with an
empty command — nothing in the code rejects it. -/
theorem empty_command_accepted_cex :
    parsePluginRequest (Json.obj [("command", Json.str "")])
      = some ⟨"", [], [], "", defaultOptions⟩ :=
  rfl

/-- C8 amended: parsing fails whenever the `command` field is absent, but a
present `command` equal to the empty string is accepted — the parser
enforces presence, not non-emptiness. -/
theorem command_required_amended :
    (∀ fields : List (String × Json), getField fields "command" = none →
        parsePluginRequest (Json.obj fields) = none)
      ∧ parsePluginRequest (Json.obj [("command", Json.str "")])
          = some ⟨"", [], [], "", defaultOptions⟩ := by
  constructor
  · intro fields h
    simp [parsePluginRequest, h]
  · rfl

theorem command_required_witness :
    parsePluginRequest (Json.obj [("args", Json.arr [])]) = none
      ∧ parsePluginRequest (Json.obj [("command", Json.str "")])
          = some ⟨"", [], [], "", defaultOptions⟩ :=
  ⟨command_required_amended.1 [("args", Json.arr [])] rfl, command_required_amended.2⟩

/-- C9 counterexample: with `help` absent, the fallback summary's first
line is "meta git v1.0", not "git v1.0" — the rendered line carries a
"meta " prefix the claim omits. -/
theorem help_fallback_cex :
    write_plugin_help ⟨"git", "1.0", [], none, none⟩ = "meta git v1.0\n"
      ∧ write_plugin_help ⟨"git", "1.0", [], none, none⟩ ≠ "git v1.0\n" := by
  constructor
  · rfl
  · decide

/-- C9 amended: for every `PluginInfo` whose `help` is `None`, the
help-rendering function writes a first line equal to
"meta <name> v<version>" and, only when a description is present, a second
line containing the description. -/
theorem help_fallback_amended (name version : String) (cmds : List String)
    (desc : Option String) :
    write_plugin_help ⟨name, version, cmds, desc, none⟩
      = "meta " ++ name ++ " v" ++ version ++ "\n"
        ++ (match desc with
            | some d => d ++ "\n"
            | none => "") :=
  rfl

/-- C10: parsing a `PluginRequest` or a `PluginRequestOptions` from an
object carrying an extra field with a key outside the schema yields the
same result as without that field — unknown keys are silently ignored and
never cause a parse error. -/
theorem unknown_fields_ignored (fields : List (String × Json)) (k : String) (v : Json) :
    (k ∉ ["command", "args", "projects", "cwd", "options"] →
        parsePluginRequest (Json.obj (fields ++ [(k, v)]))
          = parsePluginRequest (Json.obj fields))
      ∧ (k ∉ ["json_output", "verbose", "parallel", "dry_run", "silent", "recursive",
              "depth", "include_filters", "exclude_filters"] →
        parsePluginRequestOptions (Json.obj (fields ++ [(k, v)]))
          = parsePluginRequestOptions (Json.obj fields)) := by
  constructor
  · intro h
    simp only [List.mem_cons, List.not_mem_nil, or_false, not_or] at h
    obtain ⟨h1, h2, h3, h4, h5⟩ := h
    simp only [parsePluginRequest, getField_snoc_ne (Ne.symm h1),
      getField_snoc_ne (Ne.symm h2), getField_snoc_ne (Ne.symm h3),
      getField_snoc_ne (Ne.symm h4), getField_snoc_ne (Ne.symm h5)]
  · intro h
    simp only [List.mem_cons, List.not_mem_nil, or_false, not_or] at h
    obtain ⟨h1, h2, h3, h4, h5, h6, h7, h8, h9⟩ := h
    simp only [parsePluginRequestOptions, getField_snoc_ne (Ne.symm h1),
      getField_snoc_ne (Ne.symm h2), getField_snoc_ne (Ne.symm h3),
      getField_snoc_ne (Ne.symm h4), getField_snoc_ne (Ne.symm h5),
      getField_snoc_ne (Ne.symm h6), getField_snoc_ne (Ne.symm h7),
      getField_snoc_ne (Ne.symm h8), getField_snoc_ne (Ne.symm h9)]

theorem unknown_fields_witness :
    parsePluginRequest (Json.obj ([("command", Json.str "x")] ++ [("extra", Json.null)]))
        = parsePluginRequest (Json.obj [("command", Json.str "x")])
      ∧ parsePluginRequestOptions (Json.obj ([] ++ [("extra", Json.null)]))
        = parsePluginRequestOptions (Json.obj []) :=
  ⟨(unknown_fields_ignored [("command", Json.str "x")] "extra" Json.null).1 (by decide),
   (unknown_fields_ignored [] "extra" Json.null).2 (by decide)⟩
